import Mathlib

/-!
Verification development for the cwinpy Reduced-Order-Quadrature (ROQ)
engine and its Condor job layer.

The repository sources available are `cwinpy/test/test_roq.py` (which pins
the brute-force likelihood `full_log_likelihood` and the observable
behaviour of `GenerateROQ`), `cwinpy/condor/__init__.py` (the `CondorLayer`
class) and `cwinpy/pe/summary.py`.  The ROQ engine proper
(`cwinpy/pe/roq.py`) is not among them, so the engine-side definitions
below are modelled from the specification's description of the engine and
checked for consistency against the brute-force computations that the test
file defines.  All sample data are embedded over `ℚ` (exact arithmetic),
with the transcendental parts of the log-likelihoods over `ℝ`.
-/

open Matrix

namespace Cwinpy

/-- A real-valued sample vector of length `N`. -/
abbrev Vec (N : ℕ) := Fin N → ℚ

/-- A complex-valued data or model vector, stored as its real and imaginary
part (mirroring the engine's split of complex data into separate real and
imaginary bases). -/
structure CVec (N : ℕ) where
  re : Vec N
  im : Vec N

/-- View a real vector as a complex vector with vanishing imaginary part. -/
def CVec.ofReal {N : ℕ} (v : Vec N) : CVec N := ⟨v, fun _ => 0⟩

/-- Real part of `np.vdot(a, b)` (conjugate of `a` dotted with `b`):
`Re(conj(a)·b) = a.re·b.re + a.im·b.im`. -/
def vdotRe {N : ℕ} (a b : CVec N) : ℚ := a.re ⬝ᵥ b.re + a.im ⬝ᵥ b.im

/-- Modelled from the spec: `logfactorial` from `cwinpy.utils` (not under
src/), the natural logarithm of the factorial. -/
noncomputable def logfactorial (n : ℕ) : ℝ := Real.log (Nat.factorial n)

/-- Embedded from `src/cwinpy/test/test_roq.py`, `full_log_likelihood`:
the brute-force full-data log-likelihood.  `complexData` mirrors the
`data.dtype == complex` test used for the Gaussian normalisation. -/
noncomputable def full_log_likelihood {N : ℕ} (like : String) (complexData : Bool)
    (data model : CVec N) (sigma : ℚ) : ℝ :=
  let dd : ℚ := vdotRe data data
  let mm : ℚ := vdotRe model model
  let dm : ℚ := vdotRe data model
  let chisq : ℚ := (dd - 2 * dm + mm) / sigma ^ 2
  if like = "studentst" then
    logfactorial (N - 1) - Real.log 2 - (N : ℝ) * Real.log (Real.pi * (chisq : ℝ))
  else
    -0.5 * (chisq : ℝ)
      - (if complexData then (N : ℝ) else (N : ℝ) / 2) * Real.log (2 * Real.pi * (sigma : ℝ) ^ 2)

/-- The Student's-t per-chunk contribution exactly as the claim states it:
`logfactorial(n-1) - log 2 - n*log(pi*chisq)` with
`chisq = (dd - 2*dm + mm)/sigma^2`. -/
noncomputable def studentstClaimFormula (n : ℕ) (dd dm mm sigma : ℚ) : ℝ :=
  logfactorial (n - 1) - Real.log 2
    - (n : ℝ) * Real.log (Real.pi * (((dd - 2 * dm + mm) / sigma ^ 2 : ℚ) : ℝ))

/-- The Gaussian per-chunk contribution exactly as the claim states it:
`-0.5*chisq - n*log(2*pi*sigma^2)`, with the full sample count `n` used
regardless of whether the data are real or complex. -/
noncomputable def gaussianClaimFormula (n : ℕ) (dd dm mm sigma : ℚ) : ℝ :=
  -0.5 * (((dd - 2 * dm + mm) / sigma ^ 2 : ℚ) : ℝ)
    - (n : ℝ) * Real.log (2 * Real.pi * (sigma : ℝ) ^ 2)

/-- The Gaussian per-chunk contribution as the code computes it: the
normalisation coefficient is `n` for complex data but `n/2` for real data
(the `data.dtype == complex` dispatch in `full_log_likelihood`). -/
noncomputable def gaussianAmendedFormula (n : ℕ) (complexData : Bool)
    (dd dm mm sigma : ℚ) : ℝ :=
  -0.5 * (((dd - 2 * dm + mm) / sigma ^ 2 : ℚ) : ℝ)
    - (if complexData then (n : ℝ) else (n : ℝ) / 2)
        * Real.log (2 * Real.pi * (sigma : ℝ) ^ 2)

/-- Pointwise squared magnitude `|v|^2 = re^2 + im^2` of a complex vector,
the training-derived quantity over which the quadratic basis is built. -/
def sqmag {N : ℕ} (v : CVec N) : Vec N := fun i => v.re i ^ 2 + v.im i ^ 2

/-- The values of a vector at the interpolation nodes. -/
def nodeVals {N m : ℕ} (nodes : Fin m → Fin N) (v : Vec N) : Fin m → ℚ :=
  fun j => v (nodes j)

/-- Reconstruction of a vector from its values at the interpolation nodes
through the interpolant operator (spec, Data Model: "a matrix mapping a
vector's values at the interpolation nodes to its full reconstruction"). -/
def reconstruct {N m : ℕ} (interp : Matrix (Fin N) (Fin m) ℚ)
    (nodes : Fin m → Fin N) (v : Vec N) : Vec N :=
  interp *ᵥ nodeVals nodes v

/-- Modelled from the spec: the per-chunk ROQ state built by `GenerateROQ`
(`cwinpy/pe/roq.py`, not under src/): interpolation nodes and interpolant
operators for the real part, imaginary part and squared magnitude of the
model, together with the chunk's data, noise level and the precomputed
scalar `dd = Re(data·data)`; created once at setup. -/
structure ChunkROQ (N : ℕ) where
  mr : ℕ
  mi : ℕ
  m2 : ℕ
  nodesR : Fin mr → Fin N
  nodesI : Fin mi → Fin N
  nodes2 : Fin m2 → Fin N
  interpR : Matrix (Fin N) (Fin mr) ℚ
  interpI : Matrix (Fin N) (Fin mi) ℚ
  interp2 : Matrix (Fin N) (Fin m2) ℚ
  data : CVec N
  sigma : ℚ
  dd : ℚ

/-- Modelled from the spec: the weight vector for the real part — the data
vector pre-multiplied against the interpolant operator, computed once. -/
def ChunkROQ.weightsR {N : ℕ} (s : ChunkROQ N) : Fin s.mr → ℚ :=
  s.data.re ᵥ* s.interpR

/-- Modelled from the spec: the weight vector for the imaginary part. -/
def ChunkROQ.weightsI {N : ℕ} (s : ChunkROQ N) : Fin s.mi → ℚ :=
  s.data.im ᵥ* s.interpI

/-- Modelled from the spec: the quadratic weights — reconstruction of
`model·model` only needs the sum of the reconstructed squared magnitude,
so the weights are the all-ones vector pre-multiplied against the
quadratic interpolant. -/
def ChunkROQ.weights2 {N : ℕ} (s : ChunkROQ N) : Fin s.m2 → ℚ :=
  (fun _ => 1) ᵥ* s.interp2

/-- Modelled from the spec: the ROQ evaluator's reduced `Re(data·model)` —
the model is read only at the stored interpolation nodes and dotted
against the precomputed weight vectors. -/
def ChunkROQ.dmRed {N : ℕ} (s : ChunkROQ N) (model : CVec N) : ℚ :=
  s.weightsR ⬝ᵥ nodeVals s.nodesR model.re + s.weightsI ⬝ᵥ nodeVals s.nodesI model.im

/-- Modelled from the spec: the ROQ evaluator's reduced `model·model`,
from the squared magnitude of the model at the quadratic nodes. -/
def ChunkROQ.mmRed {N : ℕ} (s : ChunkROQ N) (model : CVec N) : ℚ :=
  s.weights2 ⬝ᵥ nodeVals s.nodes2 (sqmag model)

/-- Modelled from the spec: the reduced chi-squared of a chunk, with the
fixed precomputed `dd` and the reduced inner products. -/
def ChunkROQ.chisqRed {N : ℕ} (s : ChunkROQ N) (model : CVec N) : ℚ :=
  (s.dd - 2 * s.dmRed model + s.mmRed model) / s.sigma ^ 2

/-- Modelled from the spec: the Likelihood Adapter's per-chunk ROQ
log-likelihood, substituting the reduced inner products into the
Student's-t or Gaussian kernel. -/
noncomputable def ChunkROQ.logLikelihood {N : ℕ} (s : ChunkROQ N) (like : String)
    (complexData : Bool) (model : CVec N) : ℝ :=
  let chisq : ℚ := s.chisqRed model
  if like = "studentst" then
    logfactorial (N - 1) - Real.log 2 - (N : ℝ) * Real.log (Real.pi * (chisq : ℝ))
  else
    -0.5 * (chisq : ℝ)
      - (if complexData then (N : ℝ) else (N : ℝ) / 2) * Real.log (2 * Real.pi * (s.sigma : ℝ) ^ 2)

/-- Exact-reconstruction condition for a chunk at a given model: the
stored interpolants reproduce the model's real part, imaginary part and
squared magnitude from their node values, and the stored `dd` is the
chunk's `Re(data·data)`.  This is the state the builder establishes for
models captured by the converged basis. -/
def ChunkROQ.exactFor {N : ℕ} (s : ChunkROQ N) (model : CVec N) : Prop :=
  reconstruct s.interpR s.nodesR model.re = model.re
    ∧ reconstruct s.interpI s.nodesI model.im = model.im
    ∧ reconstruct s.interp2 s.nodes2 (sqmag model) = sqmag model
    ∧ s.dd = vdotRe s.data s.data

/-- The reduced `Re(data·model)` agrees with the brute-force one whenever
the interpolants reproduce the model's real and imaginary parts. -/
theorem dmRed_eq {N : ℕ} (s : ChunkROQ N) (model : CVec N)
    (hR : reconstruct s.interpR s.nodesR model.re = model.re)
    (hI : reconstruct s.interpI s.nodesI model.im = model.im) :
    s.dmRed model = vdotRe s.data model := by
  unfold ChunkROQ.dmRed ChunkROQ.weightsR ChunkROQ.weightsI vdotRe
  rw [← Matrix.dotProduct_mulVec, ← Matrix.dotProduct_mulVec]
  unfold reconstruct at hR hI
  rw [hR, hI]

/-- Summing the squared magnitude gives `Re(model·model)`. -/
theorem one_dot_sqmag {N : ℕ} (v : CVec N) :
    (fun _ => (1 : ℚ)) ⬝ᵥ sqmag v = vdotRe v v := by
  simp [Matrix.dotProduct, sqmag, vdotRe, Finset.sum_add_distrib, pow_two]

/-- The reduced `model·model` agrees with the brute-force one whenever the
quadratic interpolant reproduces the model's squared magnitude. -/
theorem mmRed_eq {N : ℕ} (s : ChunkROQ N) (model : CVec N)
    (h2 : reconstruct s.interp2 s.nodes2 (sqmag model) = sqmag model) :
    s.mmRed model = vdotRe model model := by
  unfold ChunkROQ.mmRed ChunkROQ.weights2
  rw [← Matrix.dotProduct_mulVec]
  unfold reconstruct at h2
  rw [h2, one_dot_sqmag]

/-- Under the exact-reconstruction condition the per-chunk ROQ
log-likelihood coincides with the brute-force `full_log_likelihood`, for
either kernel. -/
theorem chunk_ll_eq {N : ℕ} (s : ChunkROQ N) (model : CVec N)
    (hex : s.exactFor model) (like : String) (cd : Bool) :
    s.logLikelihood like cd model = full_log_likelihood like cd s.data model s.sigma := by
  obtain ⟨hR, hI, h2, hdd⟩ := hex
  have hchi : s.chisqRed model
      = (vdotRe s.data s.data - 2 * vdotRe s.data model + vdotRe model model) / s.sigma ^ 2 := by
    unfold ChunkROQ.chisqRed
    rw [dmRed_eq s model hR hI, mmRed_eq s model h2, hdd]
  unfold ChunkROQ.logLikelihood full_log_likelihood
  rw [hchi]

/-- A concrete chunk state whose interpolants are exact on every vector
(identity interpolant over all samples), used to instantiate theorems at a
fully evaluated input. -/
def witnessChunk : ChunkROQ 2 where
  mr := 2
  mi := 2
  m2 := 2
  nodesR := id
  nodesI := id
  nodes2 := id
  interpR := 1
  interpI := 1
  interp2 := 1
  data := ⟨![1, 2], ![0, 1]⟩
  sigma := 2
  dd := 6

/-- A concrete model vector for the witness chunk. -/
def witnessModel : CVec 2 := ⟨![3, 1], ![2, 2]⟩

/-- C1: for every parameter draw whose model the converged basis captures
exactly, the ROQ log-likelihood (Student's-t and Gaussian kernels) agrees
with the brute-force full-data log-likelihood to better than `1e-6`, and
the relative-exponential agreement (for any batch normalisation `M`) is
better than `1e-3`. -/
theorem roq_full_log_likelihood_accuracy {N : ℕ} (s : ChunkROQ N) (model : CVec N)
    (hex : s.exactFor model) (cd : Bool) :
    |s.logLikelihood ("studentst") cd model
        - full_log_likelihood ("studentst") cd s.data model s.sigma| < 1e-6
    ∧ |s.logLikelihood ("gaussian") cd model
        - full_log_likelihood ("gaussian") cd s.data model s.sigma| < 1e-6
    ∧ ∀ M : ℝ,
        |Real.exp (s.logLikelihood ("studentst") cd model - M)
            - Real.exp (full_log_likelihood ("studentst") cd s.data model s.sigma - M)|
          < 1e-3 := by
  refine ⟨?_, ?_, fun M => ?_⟩ <;>
    rw [chunk_ll_eq s model hex] <;> simp <;> norm_num

/-- Witness for C1 at a concrete chunk and model. -/
theorem roq_full_log_likelihood_accuracy_witness :
    |witnessChunk.logLikelihood ("studentst") true witnessModel
        - full_log_likelihood ("studentst") true witnessChunk.data witnessModel
            witnessChunk.sigma| < 1e-6 :=
  (roq_full_log_likelihood_accuracy witnessChunk witnessModel
    ⟨by with_unfolding_all decide, by with_unfolding_all decide,
      by with_unfolding_all decide, by with_unfolding_all decide⟩ true).1

/-- C3 counterexample: for real-valued data the code's Gaussian
contribution uses the coefficient `n/2`, not `n`, in the normalisation
term, so the claim's formula fails at real data of length 2 with
`sigma = 1`. -/
theorem gaussian_same_n_counterexample :
    full_log_likelihood ("gaussian") false (CVec.ofReal ![0, 0]) (CVec.ofReal ![0, 0]) 1
      ≠ gaussianClaimFormula 2
          (vdotRe (CVec.ofReal (N := 2) ![0, 0]) (CVec.ofReal ![0, 0]))
          (vdotRe (CVec.ofReal (N := 2) ![0, 0]) (CVec.ofReal ![0, 0]))
          (vdotRe (CVec.ofReal (N := 2) ![0, 0]) (CVec.ofReal ![0, 0])) 1 := by
  have h0 : vdotRe (CVec.ofReal (N := 2) ![0, 0]) (CVec.ofReal ![0, 0]) = (0 : ℚ) := by
    with_unfolding_all decide
  unfold full_log_likelihood gaussianClaimFormula
  rw [h0]
  have hne : ¬ (("gaussian" : String) = "studentst") := by decide
  rw [if_neg hne]
  have hl : 0 < Real.log (2 * Real.pi) := by
    apply Real.log_pos
    nlinarith [Real.pi_gt_three]
  intro h
  norm_num at h
  nlinarith [h, hl]

/-- C3 amended: the Gaussian contribution is
`-0.5*chisq - N*log(2*pi*sigma^2)` where the coefficient `N` is the
sample count for complex data but half the sample count for real data,
both for the brute-force likelihood and for the ROQ chunk likelihood
(the latter with the fixed `dd` and the reduced inner products). -/
theorem gaussian_contribution_amended {N : ℕ} (data model : CVec N) (sigma : ℚ)
    (s : ChunkROQ N) (m : CVec N) (cd : Bool) :
    full_log_likelihood ("gaussian") cd data model sigma
        = gaussianAmendedFormula N cd (vdotRe data data) (vdotRe data model)
            (vdotRe model model) sigma
    ∧ s.logLikelihood ("gaussian") cd m
        = gaussianAmendedFormula N cd s.dd (s.dmRed m) (s.mmRed m) s.sigma := by
  have hne : ¬ (("gaussian" : String) = "studentst") := by decide
  constructor
  · unfold full_log_likelihood gaussianAmendedFormula
    rw [if_neg hne]
  · unfold ChunkROQ.logLikelihood gaussianAmendedFormula ChunkROQ.chisqRed
    rw [if_neg hne]

/-- C4: the Student's-t contribution is
`logfactorial(n-1) - log 2 - n*log(pi*chisq)` with
`chisq = (dd - 2*dm + mm)/sigma^2`, for the brute-force likelihood (with
the full inner products) and for the ROQ chunk likelihood (with the
reduced inner products and the fixed precomputed `dd`); the parameters
enter the chunk contribution only through the reduced `dm` and `mm`. -/
theorem studentst_contribution_formula {N : ℕ} (data model : CVec N) (sigma : ℚ)
    (s : ChunkROQ N) (m₁ m₂ : CVec N) (cd : Bool) :
    full_log_likelihood ("studentst") cd data model sigma
        = studentstClaimFormula N (vdotRe data data) (vdotRe data model)
            (vdotRe model model) sigma
    ∧ s.logLikelihood ("studentst") cd m₁
        = studentstClaimFormula N s.dd (s.dmRed m₁) (s.mmRed m₁) s.sigma
    ∧ (s.dmRed m₁ = s.dmRed m₂ → s.mmRed m₁ = s.mmRed m₂ →
        s.logLikelihood ("studentst") cd m₁ = s.logLikelihood ("studentst") cd m₂) := by
  refine ⟨?_, ?_, fun h₁ h₂ => ?_⟩
  · unfold full_log_likelihood studentstClaimFormula
    rw [if_pos rfl]
  · unfold ChunkROQ.logLikelihood studentstClaimFormula ChunkROQ.chisqRed
    rw [if_pos rfl]
  · unfold ChunkROQ.logLikelihood ChunkROQ.chisqRed
    rw [h₁, h₂]

/-- A second concrete model with the same reduced inner products as
`witnessModel` on `witnessChunk` but a different vector. -/
def witnessModel2 : CVec 2 := ⟨![3, 1], ![-2, 2]⟩

/-- Witness for C4's parameter-independence hypotheses at a concrete
chunk and a pair of models with equal reduced inner products. -/
theorem studentst_contribution_formula_witness :
    witnessChunk.logLikelihood ("studentst") true witnessModel
      = witnessChunk.logLikelihood ("studentst") true witnessModel2 :=
  (studentst_contribution_formula witnessChunk.data witnessModel 1 witnessChunk
    witnessModel witnessModel2 true).2.2 (by with_unfolding_all decide)
    (by with_unfolding_all decide)

/-- Modelled from the spec: one data chunk handed to the Likelihood
Adapter by the heterodyned-data collaborator — a contiguous window with
its own data vector and (roughly constant) noise level. -/
structure ChunkData where
  n : ℕ
  data : CVec n
  sigma : ℚ

/-- Modelled from the spec: adapter setup — one per-chunk ROQ state
(with its real, imaginary and quadratic node sets) is built for each
chunk independently, in order. -/
def adapterSetup (build : (c : ChunkData) → ChunkROQ c.n) :
    List ChunkData → List ((n : ℕ) × ChunkROQ n)
  | [] => []
  | c :: rest => ⟨c.n, build c⟩ :: adapterSetup build rest

/-- A per-chunk evaluation job: a chunk's stored ROQ state together with
the model vector the waveform generator produced on that chunk at the
current parameters. -/
structure ChunkJob where
  n : ℕ
  roq : ChunkROQ n
  model : CVec n

/-- Modelled from the spec: the adapter's combined log-likelihood — the
per-chunk contributions are combined additively in log-space. -/
noncomputable def adapterLogLikelihood (like : String) (cd : Bool) :
    List ChunkJob → ℝ
  | [] => 0
  | j :: rest => j.roq.logLikelihood like cd j.model
      + adapterLogLikelihood like cd rest

/-- The brute-force counterpart of the adapter: the per-chunk full-data
log-likelihood contributions summed over the same chunks. -/
noncomputable def fullChunkedLogLikelihood (like : String) (cd : Bool) :
    List ChunkJob → ℝ
  | [] => 0
  | j :: rest => full_log_likelihood like cd j.roq.data j.model j.roq.sigma
      + fullChunkedLogLikelihood like cd rest

/-- C2: adapter setup builds exactly `K` per-chunk states for `K` chunks,
the `i`-th built from the `i`-th chunk (so exactly one real, one
imaginary and one quadratic node set per chunk); the combined
log-likelihood is the additive combination of the per-chunk
contributions; and when every chunk's interpolants capture its model the
combined log-likelihood matches the brute-force chunked full-data
log-likelihood to within `1e-6`. -/
theorem adapter_multichunk_correctness
    (build : (c : ChunkData) → ChunkROQ c.n) (chunks : List ChunkData)
    (like : String) (cd : Bool) (jobs : List ChunkJob)
    (hex : ∀ j ∈ jobs, j.roq.exactFor j.model) :
    (adapterSetup build chunks).length = chunks.length
    ∧ (∀ (i : ℕ) (hi : i < chunks.length)
          (hi2 : i < (adapterSetup build chunks).length),
        (adapterSetup build chunks).get ⟨i, hi2⟩
          = ⟨(chunks.get ⟨i, hi⟩).n, build (chunks.get ⟨i, hi⟩)⟩)
    ∧ (∀ (j : ChunkJob) (js : List ChunkJob),
        adapterLogLikelihood like cd (j :: js)
          = j.roq.logLikelihood like cd j.model + adapterLogLikelihood like cd js)
    ∧ |adapterLogLikelihood like cd jobs - fullChunkedLogLikelihood like cd jobs|
        < 1e-6 := by
  have hlen : ∀ l : List ChunkData, (adapterSetup build l).length = l.length := by
    intro l
    induction l with
    | nil => rfl
    | cons c rest ih => simp [adapterSetup, ih]
  have heq : ∀ js : List ChunkJob, (∀ j ∈ js, j.roq.exactFor j.model) →
      adapterLogLikelihood like cd js = fullChunkedLogLikelihood like cd js := by
    intro js
    induction js with
    | nil => intro _; rfl
    | cons j rest ih =>
      intro h
      simp only [adapterLogLikelihood, fullChunkedLogLikelihood]
      rw [chunk_ll_eq j.roq j.model (h j (by simp)) like cd,
        ih (fun x hx => h x (by simp [hx]))]
  refine ⟨hlen chunks, ?_, fun j js => rfl, ?_⟩
  · intro i
    induction chunks generalizing i with
    | nil => intro hi; exact absurd hi (by simp)
    | cons c rest ih =>
      intro hi hi2
      cases i with
      | zero => rfl
      | succ k =>
        exact ih k (by simpa using hi) (by simpa [adapterSetup] using hi2)
  · rw [heq jobs hex]
    simp
    norm_num

/-- A concrete chunk of data for the adapter witness. -/
def witnessChunkData : ChunkData := ⟨2, ⟨![1, 2], ![0, 1]⟩, 2⟩

/-- A concrete builder producing the identity interpolant over all
samples, which is exact for every model. -/
def witnessBuild : (c : ChunkData) → ChunkROQ c.n := fun c =>
  { mr := c.n
    mi := c.n
    m2 := c.n
    nodesR := id
    nodesI := id
    nodes2 := id
    interpR := 1
    interpI := 1
    interp2 := 1
    data := c.data
    sigma := c.sigma
    dd := vdotRe c.data c.data }

/-- Reading a vector at the identity node map returns the vector. -/
theorem nodeVals_id {N : ℕ} (v : Vec N) : nodeVals id v = v := rfl

/-- The identity-interpolant chunk state is exact for every model. -/
theorem witnessBuild_exact (c : ChunkData) (m : CVec c.n) :
    (witnessBuild c).exactFor m := by
  refine ⟨?_, ?_, ?_, rfl⟩ <;>
    simp [witnessBuild, reconstruct, nodeVals_id, Matrix.one_mulVec]

/-- Concrete two-chunk job list for the adapter witness. -/
def witnessJobs : List ChunkJob :=
  [⟨2, witnessBuild witnessChunkData, witnessModel⟩,
    ⟨2, witnessBuild witnessChunkData, witnessModel2⟩]

/-- Witness for C2 at a two-chunk configuration. -/
theorem adapter_multichunk_correctness_witness :
    (adapterSetup witnessBuild [witnessChunkData, witnessChunkData]).length = 2
      ∧ |adapterLogLikelihood ("studentst") true witnessJobs
          - fullChunkedLogLikelihood ("studentst") true witnessJobs| < 1e-6 := by
  have h := adapter_multichunk_correctness witnessBuild
    [witnessChunkData, witnessChunkData] ("studentst") true witnessJobs
    (by
      intro j hj
      have hj2 : j = (⟨2, witnessBuild witnessChunkData, witnessModel⟩ : ChunkJob)
          ∨ j = (⟨2, witnessBuild witnessChunkData, witnessModel2⟩ : ChunkJob) := by
        simpa [witnessJobs] using hj
      rcases hj2 with h | h <;> subst h <;> exact witnessBuild_exact witnessChunkData _)
  exact ⟨h.1, h.2.2.2⟩

/-- The square node matrix of an interpolant: the interpolant's rows read
at its own interpolation nodes.  For an empirical interpolant this is the
identity: reconstruction agrees with the input at the nodes. -/
def interpNodeSquare {N m : ℕ} (interp : Matrix (Fin N) (Fin m) ℚ)
    (nodes : Fin m → Fin N) : Matrix (Fin m) (Fin m) ℚ :=
  Matrix.of fun j k => interp (nodes j) k

/-- C5: round-trip property — any training vector represented by the
basis (it is the interpolant applied to some coefficient vector)
reconstructs exactly from its values at its own interpolation nodes,
provided the interpolant interpolates (its node matrix is the identity). -/
theorem training_vector_roundtrip {N m : ℕ}
    (interp : Matrix (Fin N) (Fin m) ℚ) (nodes : Fin m → Fin N)
    (hI : interpNodeSquare interp nodes = 1)
    (t : Vec N) (c : Fin m → ℚ) (ht : t = interp *ᵥ c) :
    reconstruct interp nodes t = t := by
  have hn : nodeVals nodes t = c := by
    funext j
    have h1 : (interpNodeSquare interp nodes *ᵥ c) j = (1 *ᵥ c) j := by rw [hI]
    rw [Matrix.one_mulVec] at h1
    calc nodeVals nodes t j = (interp *ᵥ c) (nodes j) := by rw [ht]; rfl
    _ = (interpNodeSquare interp nodes *ᵥ c) j := by
        simp [interpNodeSquare, Matrix.mulVec]
    _ = c j := h1
  unfold reconstruct
  rw [hn, ← ht]

/-- Witness for C5 at a concrete one-node interpolant. -/
theorem training_vector_roundtrip_witness :
    reconstruct (Matrix.of ![![(1 : ℚ)], ![2]]) (fun _ => 0) ![1, 2] = ![1, 2] :=
  training_vector_roundtrip (Matrix.of ![![(1 : ℚ)], ![2]]) (fun _ => 0)
    (by with_unfolding_all decide) ![1, 2] ![1]
    (by with_unfolding_all decide)

/-- Dot product of two rational sample lists. -/
def ldot (a b : List ℚ) : ℚ := (List.zipWith (· * ·) a b).sum

/-- Squared norm of a rational sample list. -/
def lnormSq (v : List ℚ) : ℚ := ldot v v

/-- Pointwise difference of two sample lists. -/
def lsub (a b : List ℚ) : List ℚ := List.zipWith (· - ·) a b

/-- Scalar multiple of a sample list. -/
def lsmul (c : ℚ) (v : List ℚ) : List ℚ := v.map (fun x => c * x)

/-- Residual of `t` after projecting out the span of the stored
(orthogonalised, unnormalised) basis vectors, by modified Gram-Schmidt;
staying unnormalised keeps the computation in exact rational
arithmetic. -/
def lresidual (basis : List (List ℚ)) (t : List ℚ) : List ℚ :=
  basis.foldl (fun r b => lsub r (lsmul (ldot r b / ldot b b) b)) t

/-- First-occurrence argmax of `f` over a list: ties keep the earlier
element (the spec's tie-break rule). -/
def argmaxBy {α : Type} (f : α → ℚ) : List α → Option α
  | [] => none
  | x :: xs => some (xs.foldl (fun best y => if f best < f y then y else best) x)

/-- Index of the entry of largest magnitude (first occurrence), the
interpolation-node choice of the empirical interpolation step. -/
def maxAbsIdx (v : List ℚ) : ℕ :=
  match argmaxBy (fun p => p.2 ^ 2) v.enum with
  | some p => p.1
  | none => 0

/-- Result of a greedy reduced-basis / empirical-interpolation run: the
basis vectors, one interpolation node per basis vector, and whether the
tolerance was met before the size cap. -/
structure GreedyResult where
  basis : List (List ℚ)
  nodes : List ℕ
  converged : Bool
deriving DecidableEq

/-- Modelled from the spec: the greedy iteration of the basis builder
(`cwinpy/pe/roq.py`, not under src/) — at each step pick the training
vector of maximum residual norm; if its residual is below the (squared,
relative) tolerance stop converged, otherwise append the residual
direction as the next basis vector and the index of its
largest-magnitude entry as the next node, until the size cap. -/
def greedyLoop (training : List (List ℚ)) (tolSq : ℚ) :
    ℕ → List (List ℚ) → List ℕ → GreedyResult
  | 0, basis, nodes => ⟨basis, nodes, false⟩
  | fuel + 1, basis, nodes =>
    match argmaxBy (fun t => lnormSq (lresidual basis t)) training with
    | none => ⟨basis, nodes, true⟩
    | some t =>
      if lnormSq (lresidual basis t) ≤ tolSq then ⟨basis, nodes, true⟩
      else
        greedyLoop training tolSq fuel (basis ++ [lresidual basis t])
          (nodes ++ [maxAbsIdx (lresidual basis t)])

/-- Modelled from the spec: the greedy builder — initialise with the
training vector of maximum norm (and its largest-magnitude entry as the
first node), make the tolerance relative to that representative vector's
squared norm, and iterate up to the maximum basis size `nmax`. -/
def greedy (training : List (List ℚ)) (tolSq : ℚ) (nmax : ℕ) : GreedyResult :=
  match nmax, argmaxBy lnormSq training with
  | _, none => ⟨[], [], true⟩
  | 0, some _ => ⟨[], [], false⟩
  | fuel + 1, some t0 =>
    greedyLoop training (tolSq * lnormSq t0) fuel [t0] [maxAbsIdx t0]

/-- The basis never shrinks during the greedy iteration. -/
theorem greedyLoop_basis_ge (training : List (List ℚ)) (tolSq : ℚ) :
    ∀ (fuel : ℕ) (basis : List (List ℚ)) (nodes : List ℕ),
      basis.length ≤ (greedyLoop training tolSq fuel basis nodes).basis.length := by
  intro fuel
  induction fuel with
  | zero => intro basis nodes; simp [greedyLoop]
  | succ f ih =>
    intro basis nodes
    simp only [greedyLoop]
    cases argmaxBy (fun t => lnormSq (lresidual basis t)) training with
    | none => simp
    | some t =>
      by_cases h : lnormSq (lresidual basis t) ≤ tolSq
      · simp [h]
      · simp only [h, if_false]
        calc basis.length ≤ (basis ++ [lresidual basis t]).length := by
              simp
        _ ≤ _ := ih (basis ++ [lresidual basis t]) (nodes ++ [maxAbsIdx (lresidual basis t)])

/-- If the greedy iteration stops unconverged it has exhausted the size
budget: the basis grew by exactly the remaining fuel. -/
theorem greedyLoop_not_converged_len (training : List (List ℚ)) (tolSq : ℚ) :
    ∀ (fuel : ℕ) (basis : List (List ℚ)) (nodes : List ℕ),
      (greedyLoop training tolSq fuel basis nodes).converged = false →
      (greedyLoop training tolSq fuel basis nodes).basis.length
        = basis.length + fuel := by
  intro fuel
  induction fuel with
  | zero => intro basis nodes _; simp [greedyLoop]
  | succ f ih =>
    intro basis nodes
    simp only [greedyLoop]
    cases argmaxBy (fun t => lnormSq (lresidual basis t)) training with
    | none => intro hnc; simp at hnc
    | some t =>
      dsimp only
      by_cases h : lnormSq (lresidual basis t) ≤ tolSq
      · rw [if_pos h]; intro hnc; simp at hnc
      · rw [if_neg h]
        intro hnc
        rw [ih _ _ hnc]
        simp [List.length_append]
        omega

/-- Argmax over a nonempty list is the first-occurrence fold. -/
theorem argmaxBy_cons {α : Type} (f : α → ℚ) (x : α) (xs : List α) :
    argmaxBy f (x :: xs)
      = some (xs.foldl (fun best y => if f best < f y then y else best) x) := rfl

/-- If the greedy builder stops unconverged, the basis has exactly the
maximum allowed size. -/
theorem greedy_not_converged_len (training : List (List ℚ)) (tolSq : ℚ) (nmax : ℕ)
    (hnc : (greedy training tolSq nmax).converged = false) :
    (greedy training tolSq nmax).basis.length = nmax := by
  cases nmax with
  | zero =>
    cases hm : argmaxBy lnormSq training with
    | none => simp [greedy, hm]
    | some t0 => simp [greedy, hm]
  | succ f =>
    cases hm : argmaxBy lnormSq training with
    | none => unfold greedy at hnc; rw [hm] at hnc; simp at hnc
    | some t0 =>
      unfold greedy at hnc ⊢
      rw [hm] at hnc ⊢
      dsimp only at hnc ⊢
      have h1 := greedyLoop_not_converged_len training (tolSq * lnormSq t0) f
        [t0] [maxAbsIdx t0] hnc
      simpa [Nat.add_comm] using h1

/-- A nonempty training set and a positive size cap give a nonempty
basis (the builder always installs the max-norm training vector first). -/
theorem greedy_basis_pos (training : List (List ℚ)) (tolSq : ℚ) (nmax : ℕ)
    (htr : training ≠ []) (hn : 0 < nmax) :
    0 < (greedy training tolSq nmax).basis.length := by
  cases training with
  | nil => exact absurd rfl htr
  | cons x xs =>
    cases nmax with
    | zero => exact absurd hn (by simp)
    | succ f =>
      unfold greedy
      rw [argmaxBy_cons]
      dsimp only
      have h1 := greedyLoop_basis_ge (x :: xs)
        (tolSq * lnormSq (xs.foldl (fun best y => if lnormSq best < lnormSq y then y else best) x)) f
        [xs.foldl (fun best y => if lnormSq best < lnormSq y then y else best) x]
        [maxAbsIdx (xs.foldl (fun best y => if lnormSq best < lnormSq y then y else best) x)]
      simp only [List.length_cons, List.length_nil] at h1
      omega

/-- The builder's fatal error mode (spec, Error Handling Design:
numerical ill-conditioning of the interpolation system). -/
inductive ROQBuildError where
  | singularInterpolant
deriving DecidableEq

/-- The square interpolation-node matrix of a greedy result: basis
vector `k` read at interpolation node `j`.  The empirical-interpolation
step solves a linear system against this matrix, and its singularity is
the builder's fatal numerical-error mode. -/
def greedyNodeMatrix (r : GreedyResult) :
    Matrix (Fin r.basis.length) (Fin r.basis.length) ℚ :=
  Matrix.of fun j k => (r.basis.get k).getD (r.nodes.getD j.val 0) 0

/-- Modelled from the spec: the checked basis build — the only error
channel is a singular interpolation matrix; convergence non-achievement
is not an error and the partial basis is returned. -/
def greedyBuild (training : List (List ℚ)) (tolSq : ℚ) (nmax : ℕ) :
    Except ROQBuildError GreedyResult :=
  let r := greedy training tolSq nmax
  if (greedyNodeMatrix r).det = 0 then Except.error ROQBuildError.singularInterpolant
  else Except.ok r

/-- C8: if the greedy build reaches the maximum basis size without
meeting the tolerance (and the interpolation matrix is not singular, the
only fatal mode), no error is raised: the builder returns the partial
basis, whose achieved size — exactly the cap — is observable by the
caller. -/
theorem greedy_cap_accepts_partial_basis (training : List (List ℚ)) (tolSq : ℚ)
    (nmax : ℕ)
    (hns : ¬ (greedyNodeMatrix (greedy training tolSq nmax)).det = 0)
    (hnc : (greedy training tolSq nmax).converged = false) :
    greedyBuild training tolSq nmax = Except.ok (greedy training tolSq nmax)
    ∧ (greedy training tolSq nmax).basis.length = nmax := by
  constructor
  · unfold greedyBuild
    rw [if_neg hns]
  · exact greedy_not_converged_len training tolSq nmax hnc

/-- Witness for C8: three orthogonal training vectors with a size cap of
two stop unconverged at two basis vectors and still build successfully. -/
theorem greedy_cap_accepts_partial_basis_witness :
    greedyBuild [[1, 0, 0], [0, 1, 0], [0, 0, 1]] 0 2
        = Except.ok (greedy [[1, 0, 0], [0, 1, 0], [0, 0, 1]] 0 2)
      ∧ (greedy [[1, 0, 0], [0, 1, 0], [0, 0, 1]] 0 2).basis.length = 2 :=
  greedy_cap_accepts_partial_basis [[1, 0, 0], [0, 1, 0], [0, 0, 1]] 0 2
    (by with_unfolding_all decide) (by with_unfolding_all decide)

/-- A complex-valued training vector over rational sample lists. -/
structure CList where
  re : List ℚ
  im : List ℚ
deriving DecidableEq

/-- Pointwise squared magnitude of a complex training vector. -/
def csqmag (c : CList) : List ℚ := List.zipWith (fun a b => a ^ 2 + b ^ 2) c.re c.im

/-- Modelled from the spec: the three independently built bases of
`GenerateROQ` for complex data — real part, imaginary part, and squared
magnitude (quadratic term). -/
structure ROQBases where
  realB : GreedyResult
  imagB : GreedyResult
  quadB : GreedyResult

/-- Modelled from the spec: basis construction runs the greedy algorithm
separately over the real parts, the imaginary parts and the squared
magnitudes of the training vectors. -/
def buildROQBases (training : List CList) (tolSq : ℚ) (nmax : ℕ) : ROQBases where
  realB := greedy (training.map CList.re) tolSq nmax
  imagB := greedy (training.map CList.im) tolSq nmax
  quadB := greedy (training.map csqmag) tolSq nmax

/-- Number of real-part basis vectors (`nbases_real`). -/
def ROQBases.nbases_real (b : ROQBases) : ℕ := b.realB.basis.length

/-- Number of imaginary-part basis vectors (`nbases_imag`). -/
def ROQBases.nbases_imag (b : ROQBases) : ℕ := b.imagB.basis.length

/-- Number of quadratic basis vectors (`nbases2`). -/
def ROQBases.nbases2 (b : ROQBases) : ℕ := b.quadB.basis.length

/-- C6: every basis produced by a successful build from a nonempty
training set is non-empty — the real-part, imaginary-part and quadratic
counts are each positive; the quadratic count is a function of the
squared-magnitude training data alone (its own separate greedy run,
independent of the linear bases); and at a concrete complex training set
the three counts are 1, 2 and 2 — the real and imaginary counts differ
from each other and the quadratic count from the real count. -/
theorem nbases_positive_and_quad_independent
    (training training' : List CList) (tolSq : ℚ) (nmax : ℕ)
    (htr : training ≠ []) (hn : 0 < nmax)
    (hq : training.map csqmag = training'.map csqmag) :
    0 < (buildROQBases training tolSq nmax).nbases_real
    ∧ 0 < (buildROQBases training tolSq nmax).nbases_imag
    ∧ 0 < (buildROQBases training tolSq nmax).nbases2
    ∧ (buildROQBases training tolSq nmax).nbases2
        = (buildROQBases training' tolSq nmax).nbases2
    ∧ (buildROQBases [⟨[1, 0], [1, 0]⟩, ⟨[1, 0], [0, 1]⟩] 0 5).nbases_real = 1
    ∧ (buildROQBases [⟨[1, 0], [1, 0]⟩, ⟨[1, 0], [0, 1]⟩] 0 5).nbases_imag = 2
    ∧ (buildROQBases [⟨[1, 0], [1, 0]⟩, ⟨[1, 0], [0, 1]⟩] 0 5).nbases2 = 2 := by
  have hmap : ∀ g : CList → List ℚ, training.map g ≠ [] := by
    intro g h
    exact htr (List.map_eq_nil_iff.mp h)
  refine ⟨greedy_basis_pos _ _ _ (hmap CList.re) hn,
    greedy_basis_pos _ _ _ (hmap CList.im) hn,
    greedy_basis_pos _ _ _ (hmap csqmag) hn, ?_, ?_, ?_, ?_⟩
  · simp only [buildROQBases, ROQBases.nbases2]
    rw [hq]
  · with_unfolding_all decide
  · with_unfolding_all decide
  · with_unfolding_all decide

/-- Witness for C6 at the concrete complex training set. -/
theorem nbases_positive_and_quad_independent_witness :
    0 < (buildROQBases [⟨[1, 0], [1, 0]⟩, ⟨[1, 0], [0, 1]⟩] 0 5).nbases_real
      ∧ 0 < (buildROQBases [⟨[1, 0], [1, 0]⟩, ⟨[1, 0], [0, 1]⟩] 0 5).nbases2 := by
  have h := nbases_positive_and_quad_independent
    [⟨[1, 0], [1, 0]⟩, ⟨[1, 0], [0, 1]⟩] [⟨[1, 0], [1, 0]⟩, ⟨[1, 0], [0, 1]⟩] 0 5
    (List.cons_ne_nil _ _) (by decide) rfl
  exact ⟨h.1, h.2.2.1⟩

/-- A scalar argument value as received from Python: a real number, a
complex number, or a string (non-numeric). -/
inductive PyScalar where
  | num (q : ℚ)
  | cnum (re im : ℚ)
  | str (s : String)
deriving DecidableEq

/-- An argument value as received by the constructor: a scalar, a 1-D
array, or a 2-D array — the shapes construction-time validation has to
distinguish. -/
inductive PyVal where
  | scalar (s : PyScalar)
  | arr1 (elems : List PyScalar)
  | arr2 (rows : List (List PyScalar))
deriving DecidableEq

/-- The two kinds of construction-time validation error: a type error
for type mismatches, a value error for shape or sign violations. -/
inductive PyErr where
  | typeError
  | valueError
deriving DecidableEq

/-- Whether a scalar is numeric (real or complex). -/
def PyScalar.isNumeric : PyScalar → Bool
  | .num _ => true
  | .cnum _ _ => true
  | .str _ => false

/-- Whether a scalar is a real number. -/
def PyScalar.isRealNum : PyScalar → Bool
  | .num _ => true
  | _ => false

/-- The real value carried by a scalar (0 for strings). -/
def PyScalar.realValue : PyScalar → ℚ
  | .num q => q
  | .cnum r _ => r
  | .str _ => 0

/-- Modelled from the spec: Training-Set Sampler input validation (the
error kinds pinned by `TestGenericModelROQ.test_exceptions`) — the
x-values must be a 1-D numeric sequence of length at least 2; a scalar
or non-numeric input is a type error, a 2-D or too-short array a value
error. -/
def checkXVals : PyVal → Except PyErr (List PyScalar)
  | .scalar _ => .error .typeError
  | .arr2 _ => .error .valueError
  | .arr1 es =>
    if es.any (fun e => ! e.isNumeric) then .error .typeError
    else if es.length < 2 then .error .valueError
    else .ok es

/-- Modelled from the spec: the data vector must be 1-D, numeric, and of
the same length as the x-values; a scalar or non-numeric input is a type
error, a 2-D array or a length mismatch a value error. -/
def checkData (xlen : ℕ) : PyVal → Except PyErr (List PyScalar)
  | .scalar _ => .error .typeError
  | .arr2 _ => .error .valueError
  | .arr1 es =>
    if es.any (fun e => ! e.isNumeric) then .error .typeError
    else if es.length ≠ xlen then .error .valueError
    else .ok es

/-- Modelled from the spec: the noise standard deviation is a scalar
(broadcast) or a per-sample array and must be strictly positive
everywhere; a non-numeric input is a type error, a non-positive value a
value error. -/
def checkSigma : PyVal → Except PyErr (List ℚ)
  | .scalar (.num q) => if q ≤ 0 then .error .valueError else .ok [q]
  | .scalar _ => .error .typeError
  | .arr2 _ => .error .valueError
  | .arr1 es =>
    if es.any (fun e => ! e.isRealNum) then .error .typeError
    else if es.any (fun e => decide (e.realValue ≤ 0)) then .error .valueError
    else .ok (es.map PyScalar.realValue)

/-- The inputs as parsed by a successful construction; producing this
value is what precedes any basis computation. -/
structure ROQInputs where
  xvals : List PyScalar
  data : List PyScalar
  sigmas : List ℚ
deriving DecidableEq

/-- Modelled from the spec: `GenerateROQ`'s construction-time validation
(`cwinpy/pe/roq.py`, not under src/; behaviour pinned by
`test_exceptions`): validate the x-values, the data against the x-value
length, the noise level, the prior and the model, short-circuiting on
the first failure, and only then hand the parsed inputs to basis
construction. -/
def generateROQ (data xvals : PyVal) (priorIsPriorDict : Bool) (sigma : PyVal)
    (modelIsCallable : Bool) : Except PyErr ROQInputs :=
  match checkXVals xvals with
  | .error e => .error e
  | .ok xs =>
    match checkData xs.length data with
    | .error e => .error e
    | .ok ds =>
      match checkSigma sigma with
      | .error e => .error e
      | .ok ss =>
        if priorIsPriorDict = false then .error .typeError
        else if modelIsCallable = false then .error .typeError
        else .ok ⟨xs, ds, ss⟩

/-- Well-formed x-values used to isolate single malformed arguments. -/
def goodX : PyVal := .arr1 [.num 0, .num 1, .num 2]

/-- Well-formed data used to isolate single malformed arguments. -/
def goodData : PyVal := .arr1 [.num 1, .num 2, .num 3]

/-- Well-formed noise level used to isolate single malformed arguments. -/
def goodSigma : PyVal := .scalar (.num 1)

/-- Mapping before `any` composes the predicate with the map. -/
theorem list_any_map {α β : Type} {f : α → β} {p : β → Bool} {l : List α} :
    (l.map f).any p = l.any fun a => p (f a) := by
  induction l with
  | nil => rfl
  | cons x xs ih => simp [ih]

/-- C7: construction with malformed input fails immediately with a type
error for type mismatches and a value error for shape/sign violations,
before any basis computation (no `ROQInputs` is produced): data length
differing from the x-values' length, a non-positive noise level (scalar
or anywhere in a per-sample array), a scalar or non-numeric or 2-D
x-value or data array, a non-numeric noise level, a non-prior object,
and a non-callable model are all rejected. -/
theorem generateROQ_rejects_malformed (ds ss : List ℚ) (q : ℚ)
    (hlen : ds.length ≠ 3) (hq : q ≤ 0) (hss : ∃ r ∈ ss, r ≤ 0) :
    generateROQ (.arr1 (ds.map PyScalar.num)) goodX true goodSigma true
        = .error .valueError
    ∧ generateROQ goodData goodX true (.scalar (.num q)) true = .error .valueError
    ∧ generateROQ goodData goodX true (.arr1 (ss.map PyScalar.num)) true
        = .error .valueError
    ∧ generateROQ goodData (.scalar (.str ("sdjf"))) true goodSigma true
        = .error .typeError
    ∧ generateROQ goodData (.arr2 [[.num 1, .num 2], [.num 2, .num 4]]) true
        goodSigma true = .error .valueError
    ∧ generateROQ goodData (.arr1 [.str ("1"), .str ("2")]) true goodSigma true
        = .error .typeError
    ∧ generateROQ (.scalar (.num 1)) goodX true goodSigma true = .error .typeError
    ∧ generateROQ (.arr2 [[.num 1, .num 2], [.num 3, .num 4]]) goodX true goodSigma
        true = .error .valueError
    ∧ generateROQ (.arr1 [.str ("1"), .str ("2")]) goodX true goodSigma true
        = .error .typeError
    ∧ generateROQ goodData goodX true (.scalar (.str ("blah"))) true
        = .error .typeError
    ∧ generateROQ goodData goodX false goodSigma true = .error .typeError
    ∧ generateROQ goodData goodX true goodSigma false = .error .typeError := by
  refine ⟨?_, ?_, ?_, ?_, ?_, ?_, ?_, ?_, ?_, ?_, ?_, ?_⟩
  · norm_num [generateROQ, goodX, goodSigma, checkXVals, checkData, checkSigma,
      list_any_map, PyScalar.isNumeric, hlen]
  · norm_num [generateROQ, goodX, goodData, checkXVals, checkData, checkSigma,
      PyScalar.isNumeric, hq]
  · have ha2 : (ss.map PyScalar.num).any (fun e => decide (e.realValue ≤ 0)) = true := by
      rw [list_any_map, List.any_eq_true]
      obtain ⟨r, hr, hle⟩ := hss
      exact ⟨r, hr, by simpa [PyScalar.realValue] using hle⟩
    norm_num [generateROQ, goodX, goodData, checkXVals, checkData, checkSigma,
      list_any_map, PyScalar.isNumeric, PyScalar.isRealNum, ha2]
  · rfl
  · rfl
  · rfl
  · rfl
  · rfl
  · rfl
  · rfl
  · with_unfolding_all rfl
  · with_unfolding_all rfl

/-- Witness for C7 at concrete malformed inputs. -/
theorem generateROQ_rejects_malformed_witness :
    generateROQ (.arr1 ([(1 : ℚ), 2].map PyScalar.num)) goodX true goodSigma true
        = .error .valueError
      ∧ generateROQ goodData goodX true (.arr1 ([(-1 : ℚ), -1].map PyScalar.num))
          true = .error .valueError := by
  have h := generateROQ_rejects_malformed [1, 2] [-1, -1] (-1)
    (by decide) (by with_unfolding_all decide)
    ⟨-1, by simp, by with_unfolding_all decide⟩
  exact ⟨h.1, h.2.2.1⟩

/-- Modelled from the spec: a single log-likelihood call against the
stored per-chunk engine state, with the state threaded explicitly — the
evaluator reads the stored nodes and weights and returns a fresh scalar
together with the state it leaves behind. -/
noncomputable def ChunkROQ.call {N : ℕ} (s : ChunkROQ N) (like : String)
    (cd : Bool) (model : CVec N) : ℝ × ChunkROQ N :=
  (s.logLikelihood like cd model, s)

/-- A batch of evaluations at successive parameter draws, each threading
the state left by the previous call. -/
noncomputable def ChunkROQ.runCalls {N : ℕ} (like : String) (cd : Bool) :
    ChunkROQ N → List (CVec N) → List ℝ × ChunkROQ N
  | s, [] => ([], s)
  | s, m :: ms =>
    let r := s.call like cd m
    let rest := ChunkROQ.runCalls like cd r.2 ms
    (r.1 :: rest.1, rest.2)

/-- C9: evaluation is a pure function of the stored basis state and the
input parameters — a call leaves the per-chunk state exactly as it was,
a repeated call on the state left behind returns the same value, and any
batch of calls threaded through the state leaves the state unchanged and
returns exactly the values of the pure log-likelihood function at each
draw. -/
theorem log_likelihood_calls_pure {N : ℕ} (s : ChunkROQ N) (like : String)
    (cd : Bool) (model : CVec N) (models : List (CVec N)) :
    (s.call like cd model).2 = s
    ∧ ((s.call like cd model).2.call like cd model).1 = (s.call like cd model).1
    ∧ (s.runCalls like cd models).2 = s
    ∧ (s.runCalls like cd models).1
        = models.map (fun m => s.logLikelihood like cd m) := by
  refine ⟨rfl, rfl, ?_, ?_⟩
  · induction models with
    | nil => rfl
    | cons m ms ih => simpa [ChunkROQ.runCalls, ChunkROQ.call] using ih
  · induction models with
    | nil => rfl
    | cons m ms ih => simpa [ChunkROQ.runCalls, ChunkROQ.call] using ih

/-- A filesystem path as `os.path` manipulates it: an absolute flag and
a list of components. -/
structure PyPath where
  isAbs : Bool
  comps : List String
deriving DecidableEq

/-- Embedded from Python's `os.path.join` (binary form, as used in the
`CondorLayer.executable` setter): if the second path is absolute it
discards the first, otherwise the components concatenate. -/
def pathJoin (a b : PyPath) : PyPath :=
  if b.isAbs then b else ⟨a.isAbs, a.comps ++ b.comps⟩

/-- The error raised by the executable setter when the resolved name is
not found; it carries the path the lookup failed on (the code formats it
into the OSError message). -/
inductive CondorError where
  | osError (exec : PyPath)
deriving DecidableEq

/-- Embedded from `cwinpy/condor/__init__.py` (`CondorLayer.executable`
setter): the name the setter probes with `shutil.which` — the
configuration value if present, else the passed default, joined as
`os.path.join(conda_prefix, "bin", name)` when a conda environment
prefix is set. -/
def resolvedExec (condaEnv : Option PyPath) (configExec : Option PyPath)
    (dflt : PyPath) : PyPath :=
  match condaEnv with
  | some p => pathJoin (pathJoin p ⟨false, ["bin"]⟩) (configExec.getD dflt)
  | none => configExec.getD dflt

/-- Embedded from `cwinpy/condor/__init__.py` (`CondorLayer.executable`
setter): resolve the configured name, look it up with `shutil.which`
(passed in as the environment's lookup function); when the lookup fails
raise `OSError`, otherwise store the found path under
`submit_options["executable"]`. -/
def CondorLayer.setExecutable (which : PyPath → Option PyPath)
    (condaEnv : Option PyPath) (configExec : Option PyPath) (dflt : PyPath)
    (submitOptions : String → Option PyPath) :
    Except CondorError (String → Option PyPath) :=
  match which (resolvedExec condaEnv configExec dflt) with
  | some exe =>
    Except.ok (fun k => if k = "executable" then some exe else submitOptions k)
  | none => Except.error (CondorError.osError (resolvedExec condaEnv configExec dflt))

/-- Convenience projection: the stored executable of a successful
construction. -/
def executableOf : Except CondorError (String → Option PyPath) → Option PyPath
  | Except.ok opts => opts ("executable")
  | Except.error _ => none

/-- The resolution exactly as the claim states it: the conda `bin`
directory is prepended whenever a conda environment is set. -/
def claimResolve (condaEnv : Option PyPath) (name : PyPath) : PyPath :=
  match condaEnv with
  | some p => ⟨p.isAbs, p.comps ++ ["bin"] ++ name.comps⟩
  | none => name

/-- C10 counterexample: with a conda environment set and an absolute
configured executable name, `os.path.join` discards the conda prefix, so
the stored executable is not the claim's conda-bin-prepended path even
though the lookup succeeds on every name. -/
theorem condor_executable_prepend_counterexample :
    executableOf (CondorLayer.setExecutable some (some ⟨true, ["env"]⟩)
        (some ⟨true, ["usr", "bin", "tool"]⟩) ⟨false, ["cwinpy"]⟩ (fun _ => none))
      = some (⟨true, ["usr", "bin", "tool"]⟩ : PyPath)
    ∧ claimResolve (some ⟨true, ["env"]⟩) (⟨true, ["usr", "bin", "tool"]⟩ : PyPath)
        ≠ (⟨true, ["usr", "bin", "tool"]⟩ : PyPath) := by
  constructor
  · rfl
  · intro h
    have h2 : (["env"] ++ ["bin"] ++ ["usr", "bin", "tool"] : List String)
        = ["usr", "bin", "tool"] := congrArg PyPath.comps h
    simp at h2

/-- C10 amended: the setter resolves the configured name (configuration
value, else the default) and prepends the conda `bin` directory when a
conda environment is set and the name is relative — an absolute name
overrides the prefix, by `os.path.join` semantics; construction raises
`OSError` exactly when `shutil.which` cannot find the resolved name, and
otherwise `submit_options["executable"]` holds the path `shutil.which`
returned, with all other submit options untouched. -/
theorem condor_executable_resolution (which : PyPath → Option PyPath)
    (condaEnv : Option PyPath) (configExec : Option PyPath) (dflt : PyPath)
    (opts : String → Option PyPath) (p exe : PyPath) :
    ((configExec.getD dflt).isAbs = false → condaEnv = some p →
        resolvedExec condaEnv configExec dflt
          = ⟨p.isAbs, p.comps ++ ["bin"] ++ (configExec.getD dflt).comps⟩)
    ∧ ((configExec.getD dflt).isAbs = true →
        resolvedExec condaEnv configExec dflt = configExec.getD dflt)
    ∧ (condaEnv = none → resolvedExec condaEnv configExec dflt = configExec.getD dflt)
    ∧ (which (resolvedExec condaEnv configExec dflt) = none ↔
        CondorLayer.setExecutable which condaEnv configExec dflt opts
          = Except.error (CondorError.osError (resolvedExec condaEnv configExec dflt)))
    ∧ (which (resolvedExec condaEnv configExec dflt) = some exe →
        ∃ newOpts, CondorLayer.setExecutable which condaEnv configExec dflt opts
            = Except.ok newOpts
          ∧ newOpts ("executable") = some exe
          ∧ ∀ k, ¬ k = "executable" → newOpts k = opts k) := by
  refine ⟨?_, ?_, ?_, ?_, ?_⟩
  · intro h1 h2
    subst h2
    simp [resolvedExec, pathJoin, h1]
  · intro h1
    cases condaEnv with
    | none => rfl
    | some q => simp [resolvedExec, pathJoin, h1]
  · intro h1
    subst h1
    rfl
  · unfold CondorLayer.setExecutable
    cases hw : which (resolvedExec condaEnv configExec dflt) with
    | none => simp
    | some e => simp
  · intro hw
    unfold CondorLayer.setExecutable
    rw [hw]
    refine ⟨fun k => if k = "executable" then some exe else opts k, rfl, by simp,
      fun k hk => by simp [hk]⟩

/-- Witness for C10 at a concrete environment: a relative name under a
conda prefix resolves into the conda `bin` directory and is stored when
found. -/
theorem condor_executable_resolution_witness :
    ∃ newOpts, CondorLayer.setExecutable some (some ⟨true, ["env"]⟩) none
        ⟨false, ["cwinpy"]⟩ (fun _ => none)
        = Except.ok newOpts
      ∧ newOpts ("executable") = some (⟨true, ["env", "bin", "cwinpy"]⟩ : PyPath)
      ∧ ∀ k, ¬ k = "executable" → newOpts k = (fun _ => (none : Option PyPath)) k :=
  (condor_executable_resolution some (some ⟨true, ["env"]⟩) none
    ⟨false, ["cwinpy"]⟩ (fun _ => none) ⟨true, ["env"]⟩
    ⟨true, ["env", "bin", "cwinpy"]⟩).2.2.2.2 rfl

end Cwinpy
